import Mathlib

/-!
Shallow embedding of the pointcloudconverter repository's type-and-range
conversion engine, field-name resolver and codec fragments
(src/util.py, src/io_utils.py, src/PointCloud.py), together with theorems
settling the frozen claims about it.

Modelling conventions:
* numpy scalar values are embedded as exact rationals (`ℚ`); machine float
  arithmetic is idealized as exact rational arithmetic, while the *structure*
  of every computation (which maxima are used, in which order divisions and
  multiplications happen, where `astype` truncates) follows the source.
* `astype` to an integer dtype truncates toward zero and then reduces into
  the type's representable range (two's complement wrap, numpy's behaviour
  on the platforms the repo targets); `astype` to a float dtype keeps the
  (idealized) value.
* numpy 1.x value-based casting is modelled: an array combined with a scalar
  of the same kind keeps the array's dtype.
* Python functions that can raise are embedded in `Except String`; a Python
  function that falls off the end (implicitly returning `None`) yields
  `Option.none` inside `Except.ok`.
-/

/-- Numpy scalar dtypes occurring in the repository, plus representatives of
the non-numeric kinds (`np.bool_`, `np.complex64`). -/
inductive DType where
  | i8 | i16 | i32 | i64
  | u8 | u16 | u32 | u64
  | f32 | f64
  | npBool | npComplex
deriving DecidableEq, Repr, Fintype

/-- What Python passes where the code expects a "type": a `np.dtype` instance,
a numpy scalar type class (such as `np.uint8` in `write_e57`), or the Python
builtins `int` / `float`. -/
inductive TypeArg where
  | inst (d : DType)
  | cls (d : DType)
  | pyInt
  | pyFloat
deriving DecidableEq, Repr

/-- Embeds `np.issubdtype(d, np.integer)` for a dtype. -/
def isIntD : DType → Bool
  | .i8 | .i16 | .i32 | .i64 | .u8 | .u16 | .u32 | .u64 => true
  | _ => false

/-- Embeds `np.issubdtype(d, np.floating)` for a dtype. -/
def isFloatD : DType → Bool
  | .f32 | .f64 => true
  | _ => false

/-- Unsigned integer dtypes (`np.iinfo(d).min == 0`). -/
def isUnsignedD : DType → Bool
  | .u8 | .u16 | .u32 | .u64 => true
  | _ => false

/-- Embeds `np.iinfo(d).max` (junk value 0 on non-integer dtypes). -/
def intMax : DType → ℤ
  | .i8 => 127
  | .i16 => 32767
  | .i32 => 2147483647
  | .i64 => 9223372036854775807
  | .u8 => 255
  | .u16 => 65535
  | .u32 => 4294967295
  | .u64 => 18446744073709551615
  | _ => 0

/-- Embeds `np.iinfo(d).min` (junk value 0 on non-integer dtypes). -/
def intMin (d : DType) : ℤ :=
  if isUnsignedD d then 0 else -(intMax d + 1)

/-- Embeds `np.finfo(d).max`, the maximum finite value of a float dtype,
as an exact rational (junk value 0 on non-float dtypes). -/
def floatMax : DType → ℚ
  | .f32 => (2 ^ 24 - 1) * 2 ^ 104
  | .f64 => (2 ^ 53 - 1) * 2 ^ 971
  | _ => 0

/-- Embeds Python's `sys.maxsize` on a 64-bit platform. -/
def sysMaxsize : ℤ := 9223372036854775807

/-- Underlying dtype of a type argument (`int` is `np.int64` on the repo's
target platforms, `float` is `np.float64`). -/
def TypeArg.dtype : TypeArg → DType
  | .inst d => d
  | .cls d => d
  | .pyInt => .i64
  | .pyFloat => .f64

/-- Embeds `np.issubdtype(t, np.integer)` on a type argument. -/
def TypeArg.isIntKind (t : TypeArg) : Bool := isIntD t.dtype

/-- Embeds `np.issubdtype(t, np.floating)` on a type argument. -/
def TypeArg.isFloatKind (t : TypeArg) : Bool := isFloatD t.dtype

/-- Embeds numpy's `array.dtype == target_type` comparison, which compares a
dtype instance with a dtype, a scalar type class, or a Python builtin. -/
def dtypeMatches (d : DType) (t : TypeArg) : Bool :=
  match t with
  | .inst d' => d = d'
  | .cls d' => d = d'
  | .pyInt => d = .i64
  | .pyFloat => d = .f64

/-- Truncation toward zero of a rational, as C/numpy `astype` to an integer
type does before reducing into range. -/
def ratTrunc (q : ℚ) : ℤ :=
  if 0 ≤ q then ⌊q⌋ else ⌈q⌉

/-- Reduce an integer into the representable range of an integer dtype
(two's complement wrap, numpy's cast behaviour on the repo's platforms). -/
def wrapInt (d : DType) (i : ℤ) : ℤ :=
  if isUnsignedD d then i.emod (intMax d + 1)
  else (i + (intMax d + 1)).emod (2 * (intMax d + 1)) - (intMax d + 1)

/-- Embeds `x.astype(d)` on one scalar value: truncate toward zero and wrap
for integer dtypes, keep the (idealized) value for float dtypes. -/
def truncToType (d : DType) (q : ℚ) : ℚ :=
  if isIntD d then (wrapInt d (ratTrunc q) : ℚ) else q

instance {ε α : Type} [DecidableEq ε] [DecidableEq α] : DecidableEq (Except ε α) := fun x y =>
  match x, y with
  | .ok a, .ok b => if h : a = b then .isTrue (by rw [h]) else .isFalse (by simp [h])
  | .error a, .error b => if h : a = b then .isTrue (by rw [h]) else .isFalse (by simp [h])
  | .ok _, .error _ => .isFalse (by simp)
  | .error _, .ok _ => .isFalse (by simp)

/-- An in-memory numpy array: one declared dtype and its (idealized) values. -/
structure NpArray where
  dtype : DType
  vals : List ℚ
deriving DecidableEq, Repr

/-- Embeds `max_value_for_type` (src/util.py lines 9-21, duplicated in
src/PointCloud.py lines 16-28).  `Except.error` is the `raise ValueError`;
`Except.ok none` is the implicit `None` returned when the kind matches but
the argument is neither a dtype instance nor the matching builtin (e.g. a
scalar type class such as `np.uint8`). -/
def max_value_for_type (t : TypeArg) : Except String (Option ℚ) :=
  if t.isIntKind then
    match t with
    | .inst d => .ok (some ((intMax d : ℤ) : ℚ))
    | .pyInt => .ok (some ((sysMaxsize : ℤ) : ℚ))
    | _ => .ok none
  else if t.isFloatKind then
    match t with
    | .inst d => .ok (some (floatMax d))
    | .pyFloat => .ok (some (floatMax .f64))
    | _ => .ok none
  else .error "ValueError: Unsupported data type"

/-- Pointwise integer-to-integer rescale of `convert_type_integers_incl_scaling`
(src/io_utils.py lines 52-63, duplicated in src/PointCloud.py lines 61-72):
compare `iinfo(cur).max+1` with `iinfo(tgt).max+1`, divide by the ratio when
shrinking, multiply when growing, then `astype` to the target. -/
def int_int_fwd (d1 d2 : DType) (v : ℚ) : ℚ :=
  if ((intMax d2 : ℤ) : ℚ) + 1 < ((intMax d1 : ℤ) : ℚ) + 1 then
    truncToType d2 (v / ((((intMax d1 : ℤ) : ℚ) + 1) / (((intMax d2 : ℤ) : ℚ) + 1)))
  else
    truncToType d2 (v * ((((intMax d2 : ℤ) : ℚ) + 1) / (((intMax d1 : ℤ) : ℚ) + 1)))

/-- Embeds `convert_type_integers_incl_scaling` on a whole array (the
signed-to-unsigned warning print has no effect on the result and is not
modelled). -/
def convert_type_integers_incl_scaling (a : NpArray) (t : DType) : NpArray :=
  ⟨t, a.vals.map (int_int_fwd a.dtype t)⟩

/-- Embeds `convert_type_floats_incl_scaling` (src/util.py lines 79-83,
duplicated in src/PointCloud.py lines 75-79).  Note: in the source the
`.astype(dtype=target_type)` is applied to the scalar `target_max_value`,
not to the product, so the result keeps the input array's dtype (numpy 1.x
value-based casting: a same-kind scalar never upcasts the array). -/
def convert_type_floats_incl_scaling (a : NpArray) (t : DType) : NpArray :=
  ⟨a.dtype, a.vals.map (fun v => v / floatMax a.dtype * floatMax t)⟩

/-- Embeds `convert_to_type_incl_scaling` (src/util.py lines 24-51, duplicated
in src/PointCloud.py lines 31-58).  `Except.error` models a raised exception
(in particular multiplying an array by `None`); `Except.ok none` models the
implicit `None` returned when no branch of the if/elif chain applies. -/
def convert_to_type_incl_scaling (a : NpArray) (t : TypeArg) (m : Bool) :
    Except String (Option NpArray) :=
  if dtypeMatches a.dtype t then .ok (some a)
  else if isFloatD a.dtype && t.isFloatKind then
    .ok (some (convert_type_floats_incl_scaling a t.dtype))
  else if isIntD a.dtype && t.isIntKind then
    .ok (some (convert_type_integers_incl_scaling a t.dtype))
  else if isFloatD a.dtype && t.isIntKind then
    if m then
      match max_value_for_type t with
      | .error e => .error e
      | .ok none => .error "TypeError: unsupported operand type NoneType"
      | .ok (some mx) =>
          .ok (some ⟨t.dtype, a.vals.map (fun v => truncToType t.dtype (v * mx))⟩)
    else
      match max_value_for_type (.inst a.dtype) with
      | .error e => .error e
      | .ok none => .error "TypeError: unsupported operand type NoneType"
      | .ok (some mv) =>
          match max_value_for_type t with
          | .error e => .error e
          | .ok none => .error "TypeError: unsupported operand type NoneType"
          | .ok (some mx) =>
              .ok (some ⟨t.dtype, a.vals.map (fun v => truncToType t.dtype (v / mv * mx))⟩)
  else if isIntD a.dtype && t.isFloatKind then
    match max_value_for_type (.inst a.dtype) with
    | .error e => .error e
    | .ok none => .error "TypeError: unsupported operand type NoneType"
    | .ok (some mv) =>
        let scaling : ℚ := if m then 1 else floatMax t.dtype
        .ok (some ⟨t.dtype, a.vals.map (fun v => truncToType t.dtype (v / mv * scaling))⟩)
  else .ok none

/-- Char-list prefix test (first argument is the candidate needle prefix). -/
def prefHelper : List Char → List Char → Bool
  | [], _ => true
  | _ :: _, [] => false
  | a :: as, b :: bs => a == b && prefHelper as bs

/-- Embeds Python's `needle in hay` substring containment on the char lists. -/
def subHelper (hay needle : List Char) : Bool :=
  match hay with
  | [] => needle.isEmpty
  | _ :: t => prefHelper needle hay || subHelper t needle

/-- Embeds Python's `needle in hay` on strings. -/
def strContainsSub (hay needle : String) : Bool :=
  subHelper hay.data needle.data

/-- Embeds Python's `str.lower()` (ASCII, which covers the repo's inputs). -/
def strLower (s : String) : String :=
  String.mk (s.data.map Char.toLower)

/-- Embeds Python's `bytes.isdigit()`: nonempty and all ASCII digits. -/
def strIsdigit (s : String) : Bool :=
  !s.isEmpty && s.data.all Char.isDigit

/-- Embeds Python's `str.strip()` / `bytes.strip()` for whitespace
(structural implementation so that terms evaluate). -/
def pyStrip (s : String) : String :=
  String.mk (((s.data.dropWhile Char.isWhitespace).reverse.dropWhile
    Char.isWhitespace).reverse)

/-- Embeds Python's `s.startswith(p)` (structural implementation). -/
def strStartsWith (s p : String) : Bool := prefHelper p.data s.data

/-- Embeds Python's `c in s` for a single character. -/
def strContainsChar (s : String) (c : Char) : Bool := s.data.contains c

/-- Embeds Python's `s.split(sep)` for a one-character separator: runs of the
separator produce empty fields, exactly like `bytes.split(b' ')`. -/
def strSplitOn (s : String) (c : Char) : List String :=
  (s.data.splitOn c).map String.mk

/-- The Python dict `{'x': None, ..., 'intensity': None}` that both
`map_field_names` variants start from, as an association list.  All seven keys
are always present (membership tests with `in` are on keys). -/
def emptyMapping : List (String × Option String) :=
  [("x", none), ("y", none), ("z", none), ("r", none), ("g", none), ("b", none),
   ("intensity", none)]

/-- Python `d[k]` on the mapping dict (keys are always present in its uses). -/
def dictGet (d : List (String × Option String)) (k : String) : Option String :=
  match d.find? (fun p => p.1 == k) with
  | some p => p.2
  | none => none

/-- Python `d[k] = v` on the mapping dict. -/
def dictSet (d : List (String × Option String)) (k : String) (v : Option String) :
    List (String × Option String) :=
  d.map (fun p => if p.1 == k then (p.1, v) else p)

/-- Python `k in d` on the mapping dict: a KEY-membership test. -/
def dictContainsKey (d : List (String × Option String)) (k : String) : Bool :=
  d.any (fun p => p.1 == k)

/-- One step of the `map_field_names` loop of src/PointCloud.py lines 82-104
(role priority x, y, z, r, g, b, intensity). -/
def mapFieldStep (m : List (String × Option String)) (field_name : String) :
    List (String × Option String) :=
  let fl := strLower field_name
  if (dictGet m "x").isNone && strContainsSub fl "x" then dictSet m "x" (some field_name)
  else if (dictGet m "y").isNone && strContainsSub fl "y" then dictSet m "y" (some field_name)
  else if (dictGet m "z").isNone && strContainsSub fl "z" then dictSet m "z" (some field_name)
  else if (dictGet m "r").isNone && (fl == "r" || strContainsSub fl "red") then
    dictSet m "r" (some field_name)
  else if (dictGet m "g").isNone && (fl == "g" || strContainsSub fl "green") then
    dictSet m "g" (some field_name)
  else if (dictGet m "b").isNone && (fl == "b" || strContainsSub fl "blue") then
    dictSet m "b" (some field_name)
  else if (dictGet m "intensity").isNone && strContainsSub fl "intensit" then
    dictSet m "intensity" (some field_name)
  else m

/-- Embeds `map_field_names` of src/PointCloud.py lines 82-104. -/
def map_field_names (from_field_names : List String) : List (String × Option String) :=
  from_field_names.foldl mapFieldStep emptyMapping

/-- One step of the `map_field_names` loop of src/util.py lines 54-76 (same
tests but the intensity role is tried first). -/
def mapFieldStepUtil (m : List (String × Option String)) (field_name : String) :
    List (String × Option String) :=
  let fl := strLower field_name
  if (dictGet m "intensity").isNone && strContainsSub fl "intensit" then
    dictSet m "intensity" (some field_name)
  else if (dictGet m "x").isNone && strContainsSub fl "x" then dictSet m "x" (some field_name)
  else if (dictGet m "y").isNone && strContainsSub fl "y" then dictSet m "y" (some field_name)
  else if (dictGet m "z").isNone && strContainsSub fl "z" then dictSet m "z" (some field_name)
  else if (dictGet m "r").isNone && (fl == "r" || strContainsSub fl "red") then
    dictSet m "r" (some field_name)
  else if (dictGet m "g").isNone && (fl == "g" || strContainsSub fl "green") then
    dictSet m "g" (some field_name)
  else if (dictGet m "b").isNone && (fl == "b" || strContainsSub fl "blue") then
    dictSet m "b" (some field_name)
  else m

/-- Embeds `map_field_names` of src/util.py lines 54-76. -/
def map_field_names_util (from_field_names : List String) : List (String × Option String) :=
  from_field_names.foldl mapFieldStepUtil emptyMapping

/-- Loop of `get_skip_lines_pts` (src/io_utils.py lines 66-78): count comment
lines (`//` prefix) and lone numeric lines, stop at the first line containing
a space that is not a comment; other lines are passed over without counting. -/
def getSkipLinesGo : List String → Nat → Nat
  | [], to_skip => to_skip
  | l :: ls, to_skip =>
    let candidate_header := strLower (pyStrip l)
    if strStartsWith candidate_header "//" || strIsdigit candidate_header then
      getSkipLinesGo ls (to_skip + 1)
    else if strContainsChar candidate_header ' ' then to_skip
    else getSkipLinesGo ls to_skip

/-- Embeds `get_skip_lines_pts` on the file's lines. -/
def get_skip_lines_pts (lines : List String) : Nat :=
  getSkipLinesGo lines 0

/-- Digit-list value, for the ASCII number parser. -/
def digitsVal (cs : List Char) : Nat :=
  cs.foldl (fun a c => a * 10 + (c.toNat - 48)) 0

/-- Parse an unsigned ASCII decimal (optionally with a fractional part) as an
exact rational; `none` models a `ValueError` from Python's float parsing.
Exponent notation is not needed by the repository's inputs and is not
modelled. -/
def parseUnsignedQ (cs : List Char) : Option ℚ :=
  match cs.splitOn '.' with
  | [a] => if !a.isEmpty && a.all Char.isDigit then some (digitsVal a : ℚ) else none
  | [a, b] =>
    if (!a.isEmpty || !b.isEmpty) && a.all Char.isDigit && b.all Char.isDigit then
      some ((digitsVal a : ℚ) + (digitsVal b : ℚ) / (10 : ℚ) ^ b.length)
    else none
  | _ => none

/-- Parse a (possibly signed) ASCII decimal as an exact rational. -/
def parseQ (s : String) : Option ℚ :=
  match s.data with
  | '-' :: rest => (parseUnsignedQ rest).map (fun q => -q)
  | '+' :: rest => parseUnsignedQ rest
  | cs => parseUnsignedQ cs

/-- The canonical in-memory point-cloud model (`PointCloud` instance state):
points, colors and intensities with their declared dtypes. -/
structure Model where
  points_dtype : DType
  points : List (ℚ × ℚ × ℚ)
  colors_dtype : DType
  colors : List (ℚ × ℚ × ℚ)
  intensities_dtype : DType
  intensities : List ℚ
deriving DecidableEq, Repr

/-- Parse one data line for `np.loadtxt`: split on the delimiter, require
exactly one token per dtype-list entry, and parse each token numerically
(`Except.error` models the `ValueError` loadtxt raises on a bad row). -/
def loadtxtLine (dts : List DType) (line : String) : Except String (List ℚ) :=
  let toks := strSplitOn (pyStrip line) ' '
  if toks.length ≠ dts.length then .error "ValueError: wrong number of columns"
  else
    let parsed := toks.zip dts |>.map (fun p => (parseQ p.1).map (truncToType p.2))
    if parsed.all (·.isSome) then .ok (parsed.map (·.getD 0))
    else .error "ValueError: could not convert string to float"

/-- Embeds `np.loadtxt(..., comments="//", delimiter=' ', skiprows=skip)` over
the file's lines: skip `skiprows` lines, ignore comment and blank lines, parse
the rest, stopping at the first malformed row. -/
def loadtxt (lines : List String) (skiprows : Nat) (dts : List DType) :
    Except String (List (List ℚ)) :=
  (lines.drop skiprows).foldr
    (fun line acc =>
      if strStartsWith (pyStrip line) "//" || (pyStrip line).isEmpty then acc
      else
        match loadtxtLine dts line with
        | .error e => .error e
        | .ok r =>
          match acc with
          | .error e => .error e
          | .ok rs => .ok (r :: rs))
    (.ok [])

/-- The fixed PTS column dtype list before sampling (src/PointCloud.py lines
344-348): x, y, z, intensity as float32 and r, g, b as uint8. -/
def ptsBaseDtypes : List DType :=
  [.f32, .f32, .f32, .f32, .u8, .u8, .u8]

/-- Embeds the sample-based dtype detection of `read_pts` (src/PointCloud.py
lines 357-362): each sampled token that is digit-only makes its column uint8,
any other token makes it float32; unsampled columns keep float32.
More sample tokens than the seven dtype-list entries raise `IndexError`. -/
def ptsSampleDtypes (sample_toks : List String) : List DType :=
  (sample_toks.map (fun t => if strIsdigit (pyStrip t) then DType.u8 else DType.f32)) ++
    List.replicate (7 - sample_toks.length) DType.f32

/-- Embeds `read_pts` (src/PointCloud.py lines 342-368): detect the skip
count, sample the first unskipped line for column dtypes, then `np.loadtxt`
the file and assemble the model. -/
def read_pts (lines : List String) : Except String Model :=
  let skip_lines := get_skip_lines_pts lines
  match (lines.drop skip_lines).head? with
  | none => .error "ValueError: empty sample"
  | some sample_line =>
    let sample := strSplitOn sample_line ' '
    if 7 < sample.length then .error "IndexError: list index out of range"
    else
      let dts := ptsSampleDtypes sample
      match loadtxt lines skip_lines dts with
      | .error e => .error e
      | .ok rows =>
        .ok { points_dtype := .f32
              points := rows.map (fun r => (r.getD 0 0, r.getD 1 0, r.getD 2 0))
              colors_dtype := dts.getD 4 .f32
              colors := rows.map (fun r => (r.getD 4 0, r.getD 5 0, r.getD 6 0))
              intensities_dtype := dts.getD 3 .f32
              intensities := rows.map (fun r => r.getD 3 0) }

/-- A decoded laspy file as `read_las` sees it: the point-format dimension
names, the `las.xyz` coordinates, and the named dimension arrays with the
dtypes laspy gives color and intensity dimensions. -/
structure LasFile where
  dims : List String
  xyz : List (ℚ × ℚ × ℚ)
  col : String → Option (List ℚ)
  colorDtype : DType
  intensityDtype : DType

/-- Embeds `las[name]` where `name` comes out of the field mapping: indexing
with `None` raises, as does an unknown dimension name. -/
def lasGetDim (f : LasFile) (n : Option String) : Except String (List ℚ) :=
  match n with
  | none => .error "ValueError: None is not a dimension of this point format"
  | some s =>
    match f.col s with
    | some a => .ok a
    | none => .error "ValueError: unknown dimension"

/-- Embeds `np.stack((r, g, b), axis=1)`: lengths must agree. -/
def stack3 (r g b : List ℚ) : Except String (List (ℚ × ℚ × ℚ)) :=
  if r.length == g.length && g.length == b.length then
    .ok ((r.zip (g.zip b)).map (fun p => (p.1, p.2.1, p.2.2)))
  else .error "ValueError: all input arrays must have the same shape"

/-- Embeds `read_las` (src/PointCloud.py lines 223-239).  Note the source
guards the color branch with `'r' in fn and 'g' in fn and 'b' in fn`, a
KEY-membership test on a dict that always carries all seven keys, so the
branch is always taken and a file without color dimensions reaches
`las[None]`. -/
def read_las (f : LasFile) : Except String Model :=
  let fn := map_field_names f.dims
  let points := f.xyz
  let colorsRes : Except String (DType × List (ℚ × ℚ × ℚ)) :=
    if dictContainsKey fn "r" && dictContainsKey fn "g" && dictContainsKey fn "b" then
      match lasGetDim f (dictGet fn "r"), lasGetDim f (dictGet fn "g"),
          lasGetDim f (dictGet fn "b") with
      | .ok r, .ok g, .ok b =>
        match stack3 r g b with
        | .ok colors => .ok (f.colorDtype, colors)
        | .error e => .error e
      | .error e, _, _ => .error e
      | _, .error e, _ => .error e
      | _, _, .error e => .error e
    else .ok (.u8, List.replicate points.length ((0 : ℚ), (0 : ℚ), (0 : ℚ)))
  let intensitiesRes : Except String (DType × List ℚ) :=
    if dictContainsKey fn "intensity" then
      match lasGetDim f (dictGet fn "intensity") with
      | .ok i => .ok (f.intensityDtype, i)
      | .error e => .error e
    else .ok (.f32, List.replicate points.length (0 : ℚ))
  match colorsRes, intensitiesRes with
  | .ok c, .ok i =>
    .ok { points_dtype := .f32, points := points
          colors_dtype := c.1, colors := c.2
          intensities_dtype := i.1, intensities := i.2 }
  | .error e, _ => .error e
  | _, .error e => .error e

/-- A decoded pye57 scan as `read_e57` sees it: the header's point fields and
point count, and the raw data dict. -/
structure E57File where
  point_fields : List String
  point_count : Nat
  data : String → Option (List ℚ)

/-- Embeds `data[name]` on the e57 raw-data dict. -/
def e57Get (f : E57File) (n : Option String) : Except String (List ℚ) :=
  match n with
  | none => .error "KeyError: None"
  | some s =>
    match f.data s with
    | some a => .ok a
    | none => .error "KeyError"

/-- Embeds `read_e57` (src/PointCloud.py lines 180-200).  Unlike `read_las`,
the branch guards here test the truthiness of the mapped VALUES
(`fm['x'] and fm['y'] and fm['z']`), so missing roles correctly select the
zero-filled defaults sized to the header point count. -/
def read_e57 (f : E57File) : Except String Model :=
  let fm := map_field_names f.point_fields
  let pointsRes : Except String (List (ℚ × ℚ × ℚ)) :=
    if (dictGet fm "x").isSome && (dictGet fm "y").isSome && (dictGet fm "z").isSome then
      match e57Get f (dictGet fm "x"), e57Get f (dictGet fm "y"), e57Get f (dictGet fm "z") with
      | .ok x, .ok y, .ok z => stack3 x y z
      | .error e, _, _ => .error e
      | _, .error e, _ => .error e
      | _, _, .error e => .error e
    else .ok (List.replicate f.point_count ((0 : ℚ), (0 : ℚ), (0 : ℚ)))
  let intensitiesRes : Except String (List ℚ) :=
    if (dictGet fm "intensity").isSome then e57Get f (dictGet fm "intensity")
    else .ok (List.replicate f.point_count (0 : ℚ))
  let colorsRes : Except String (List (ℚ × ℚ × ℚ)) :=
    if (dictGet fm "r").isSome && (dictGet fm "g").isSome && (dictGet fm "b").isSome then
      match e57Get f (dictGet fm "r"), e57Get f (dictGet fm "g"), e57Get f (dictGet fm "b") with
      | .ok r, .ok g, .ok b =>
        match stack3 r g b with
        | .ok c => .ok (c.map (fun p => (truncToType .u8 p.1, truncToType .u8 p.2.1,
            truncToType .u8 p.2.2)))
        | .error e => .error e
      | .error e, _, _ => .error e
      | _, .error e, _ => .error e
      | _, _, .error e => .error e
    else .ok (List.replicate f.point_count ((0 : ℚ), (0 : ℚ), (0 : ℚ)))
  match pointsRes, intensitiesRes, colorsRes with
  | .ok p, .ok i, .ok c =>
    .ok { points_dtype := .f32, points := p
          colors_dtype := .u8, colors := c
          intensities_dtype := .f32, intensities := i }
  | .error e, _, _ => .error e
  | _, .error e, _ => .error e
  | _, _, .error e => .error e

/-- Embeds the color-conversion step of `write_e57` (src/PointCloud.py line
214): `convert_to_type_incl_scaling(self.colors, np.uint8, True)` with the
target passed as the scalar type CLASS `np.uint8`, not a dtype instance. -/
def write_e57_colors (colors : NpArray) : Except String (Option NpArray) :=
  convert_to_type_incl_scaling colors (.cls .u8) true

/-- Minimum of a list of rationals, `np.min` style (junk 0 on empty input,
where numpy would raise). -/
def listMinQ : List ℚ → ℚ
  | [] => 0
  | x :: xs => xs.foldl min x

/-- Maximum of a list of rationals, `np.max` style. -/
def listMaxQ : List ℚ → ℚ
  | [] => 0
  | x :: xs => xs.foldl max x

/-- Embeds `np.iinfo(np.int32).max`. -/
def i32maxQ : ℚ := 2147483647

/-- Embeds the floating-point branch of `write_las` (src/PointCloud.py lines
250-252): per-axis `header.offsets = np.min(points, axis=0)` and
`header.scales = np.max(points - offsets, axis=0) / np.iinfo(np.int32).max`. -/
def write_las_header (points : List (ℚ × ℚ × ℚ)) : (ℚ × ℚ × ℚ) × (ℚ × ℚ × ℚ) :=
  let xs := points.map (·.1)
  let ys := points.map (·.2.1)
  let zs := points.map (·.2.2)
  let off : ℚ × ℚ × ℚ := (listMinQ xs, listMinQ ys, listMinQ zs)
  let sc : ℚ × ℚ × ℚ := (listMaxQ (xs.map (· - off.1)) / i32maxQ,
    listMaxQ (ys.map (· - off.2.1)) / i32maxQ,
    listMaxQ (zs.map (· - off.2.2)) / i32maxQ)
  (off, sc)

/-- Modelled from the spec: the laspy write path (library code, not under
src/) clamps each coordinate to the `[min_allowed, max_allowed]` window
derived from the header's scale and offset — the coordinates representable by
a signed 32-bit stored integer — before converting to integer storage. -/
def las_write_clamp (off sc c : ℚ) : ℚ :=
  let min_allowed := off + (-2147483648 : ℚ) * sc
  let max_allowed := off + i32maxQ * sc
  max min_allowed (min c max_allowed)

/-- One quantization step of the narrower of two dtypes, expressed in the
source dtype's value scale; the tolerance the round-trip property allows. -/
def quantStep (d1 d2 : DType) (m : Bool) : ℚ :=
  if isIntD d1 && isIntD d2 then
    (if intMax d2 < intMax d1 then ((intMax d1 : ℚ) + 1) / ((intMax d2 : ℚ) + 1) else 1)
  else if isIntD d1 && isFloatD d2 then 0
  else if isFloatD d1 && isIntD d2 then
    (if m then 1 else floatMax d1) / ((intMax d2 : ℚ))
  else if isFloatD d1 && isFloatD d2 then (if d1 = d2 then 0 else 1 / 2 ^ 23)
  else 0

/-- The natural range of a value of a dtype: an integer dtype holds integers
between its `iinfo` bounds; a float dtype holds values in `[0, 1]` under the
`float_max_is_1` convention and `[0, finfo.max]` otherwise. -/
def inRange (d : DType) (m : Bool) (v : ℚ) : Prop :=
  if isIntD d then
    (∃ k : ℤ, v = (k : ℚ)) ∧ (intMin d : ℚ) ≤ v ∧ v ≤ (intMax d : ℚ)
  else if isFloatD d then 0 ≤ v ∧ v ≤ (if m then 1 else floatMax d)
  else False

/-- Integer rescale as the spec words it: compare the cardinalities
`current_max+1` and `target_max+1`; divide by the cardinality ratio when
shrinking, multiply by it when growing, then cast to the target type. -/
def integer_rescale_spec (d1 d2 : DType) (v : ℚ) : ℚ :=
  if intMax d2 + 1 < intMax d1 + 1 then
    truncToType d2 (v / ((((intMax d1 : ℤ) : ℚ) + 1) / (((intMax d2 : ℤ) : ℚ) + 1)))
  else
    truncToType d2 (v * ((((intMax d2 : ℤ) : ℚ) + 1) / (((intMax d1 : ℤ) : ℚ) + 1)))

/-- A LAS file in point format 0: coordinate and intensity dimensions but no
red/green/blue color dimensions. -/
def lasColorless : LasFile :=
  { dims := ["X", "Y", "Z", "intensity", "return_number", "classification",
      "user_data", "point_source_id"]
    xyz := [(1, 2, 3), (4, 5, 6)]
    col := fun s => if s == "intensity" then some [10, 20] else none
    colorDtype := .u16
    intensityDtype := .u16 }

/-- An E57 scan with cartesian coordinates and intensity but no color
fields. -/
def e57Colorless : E57File :=
  { point_fields := ["cartesianX", "cartesianY", "cartesianZ", "intensity"]
    point_count := 2
    data := fun s =>
      if s == "cartesianX" then some [1, 4]
      else if s == "cartesianY" then some [2, 5]
      else if s == "cartesianZ" then some [3, 6]
      else if s == "intensity" then some [10, 20]
      else none }

/-- The PTS file of the end-to-end scenario: the column-name header written
by `write_pts`, the point count, then 100 data rows. -/
def ptsScenarioLines : List String :=
  "X Y Z Intensity R G B" :: "100" :: List.replicate 100 "1.0 2.0 3.0 0.5 10 20 30"

/-- Embeds the header-field dispatch of `write_las` (src/PointCloud.py lines
245-252): integer points get zero offsets and unit scales, floating points
get the min/max-derived offsets and scales; `header.offsets`/`header.scales`
are never assigned for other dtypes. -/
def write_las_offsets_scales (d : DType) (points : List (ℚ × ℚ × ℚ)) :
    Option ((ℚ × ℚ × ℚ) × (ℚ × ℚ × ℚ)) :=
  if isIntD d then some ((0, 0, 0), (1, 1, 1))
  else if isFloatD d then some (write_las_header points)
  else none

/-- Spec-side characterisation of the LAS header for floating-point points:
per axis the offset is the minimum coordinate (a lower bound that is
attained), the scale times INT32_MAX is the maximum of coordinate-minus-offset
(an upper bound that is attained), and the write-side clamp to
`[min_allowed, max_allowed]` leaves every coordinate unchanged, so no
coordinate overflows the signed 32-bit storage range. -/
def las_header_spec_ok (points : List (ℚ × ℚ × ℚ)) : Prop :=
  let off := (write_las_header points).1
  let sc := (write_las_header points).2
  (∀ p ∈ points, off.1 ≤ p.1 ∧ off.2.1 ≤ p.2.1 ∧ off.2.2 ≤ p.2.2) ∧
  ((∃ p ∈ points, p.1 = off.1) ∧ (∃ p ∈ points, p.2.1 = off.2.1) ∧
    (∃ p ∈ points, p.2.2 = off.2.2)) ∧
  (∀ p ∈ points, p.1 - off.1 ≤ sc.1 * i32maxQ ∧ p.2.1 - off.2.1 ≤ sc.2.1 * i32maxQ ∧
    p.2.2 - off.2.2 ≤ sc.2.2 * i32maxQ) ∧
  ((∃ p ∈ points, p.1 - off.1 = sc.1 * i32maxQ) ∧
    (∃ p ∈ points, p.2.1 - off.2.1 = sc.2.1 * i32maxQ) ∧
    (∃ p ∈ points, p.2.2 - off.2.2 = sc.2.2 * i32maxQ)) ∧
  (∀ p ∈ points, las_write_clamp off.1 sc.1 p.1 = p.1 ∧
    las_write_clamp off.2.1 sc.2.1 p.2.1 = p.2.1 ∧
    las_write_clamp off.2.2 sc.2.2 p.2.2 = p.2.2)

lemma ratTrunc_intCast (k : ℤ) : ratTrunc (k : ℚ) = k := by
  unfold ratTrunc
  split <;> simp

lemma abs_sub_ratTrunc_lt_one (q : ℚ) : |q - (ratTrunc q : ℚ)| < 1 := by
  unfold ratTrunc
  split
  · rw [abs_of_nonneg (by simp [Int.floor_le])]
    have := Int.lt_floor_add_one q
    linarith
  · rw [abs_of_nonpos (by simp [Int.le_ceil])]
    have := Int.ceil_lt_add_one q
    linarith

lemma ratTrunc_le_of_lt_add_one {q : ℚ} {b : ℤ} (hb : 0 ≤ b) (h : q < (b : ℚ) + 1) :
    ratTrunc q ≤ b := by
  unfold ratTrunc
  split
  · have : ⌊q⌋ < b + 1 := Int.floor_lt.mpr (by push_cast; linarith)
    omega
  · have hq : q ≤ 0 := le_of_lt (lt_of_not_le (by assumption))
    have : ⌈q⌉ ≤ (0 : ℤ) := Int.ceil_le.mpr (by exact_mod_cast hq)
    omega

lemma le_ratTrunc_of_le {q : ℚ} {a : ℤ} (ha : a ≤ 0) (h : (a : ℚ) ≤ q) :
    a ≤ ratTrunc q := by
  unfold ratTrunc
  split
  · have : (0 : ℤ) ≤ ⌊q⌋ := Int.floor_nonneg.mpr (by assumption)
    omega
  · have : (a : ℚ) ≤ (⌈q⌉ : ℚ) := le_trans h (Int.le_ceil q)
    exact_mod_cast this

lemma ratTrunc_nonneg {q : ℚ} (h : 0 ≤ q) : 0 ≤ ratTrunc q := by
  unfold ratTrunc
  rw [if_pos h]
  exact Int.floor_nonneg.mpr h

lemma intMax_nonneg : ∀ d : DType, isIntD d = true → 0 ≤ intMax d := by decide

lemma wrapInt_eq_self {d : DType} {i : ℤ} (h1 : intMin d ≤ i) (h2 : i ≤ intMax d) :
    wrapInt d i = i := by
  unfold wrapInt
  unfold intMin at h1
  by_cases hu : isUnsignedD d = true
  · rw [if_pos hu] at h1 ⊢
    exact Int.emod_eq_of_lt h1 (by omega)
  · rw [if_neg hu] at h1 ⊢
    have : (i + (intMax d + 1)).emod (2 * (intMax d + 1)) = i + (intMax d + 1) :=
      Int.emod_eq_of_lt (by omega) (by omega)
    omega

lemma truncToType_int_eq {d : DType} (hd : isIntD d = true) (q : ℚ) :
    truncToType d q = ((wrapInt d (ratTrunc q) : ℤ) : ℚ) := by
  simp [truncToType, hd]

lemma truncToType_int_range {d : DType} (hd : isIntD d = true) {q : ℚ}
    (h1 : (intMin d : ℚ) ≤ q) (h2 : q < (intMax d : ℚ) + 1) :
    truncToType d q = ((ratTrunc q : ℤ) : ℚ) ∧
      intMin d ≤ ratTrunc q ∧ ratTrunc q ≤ intMax d := by
  have hmax : 0 ≤ intMax d := intMax_nonneg d hd
  have hminle : intMin d ≤ 0 := by
    unfold intMin; split <;> omega
  have hup : ratTrunc q ≤ intMax d := ratTrunc_le_of_lt_add_one hmax h2
  have hlo : intMin d ≤ ratTrunc q := le_ratTrunc_of_le hminle h1
  refine ⟨?_, hlo, hup⟩
  rw [truncToType_int_eq hd, wrapInt_eq_self hlo hup]

lemma int_not_float : ∀ d : DType, isIntD d = true → isFloatD d = false := by decide

lemma float_not_int : ∀ d : DType, isFloatD d = true → isIntD d = false := by decide

lemma intMax_card_distinct : ∀ d1 d2 : DType, isIntD d1 = true → isIntD d2 = true →
    intMax d1 = intMax d2 → d1 = d2 := by decide

lemma intMax_card_dvd : ∀ d1 d2 : DType, isIntD d1 = true → isIntD d2 = true →
    intMax d2 < intMax d1 →
    (intMax d1 + 1).emod (intMax d2 + 1) = 0 ∧ 2 ≤ (intMax d1 + 1) / (intMax d2 + 1) := by
  decide

lemma floatMax_pos : ∀ d : DType, isFloatD d = true → 0 < floatMax d := by
  intro d hd
  cases d <;> first
  | exact absurd hd (by decide)
  | norm_num [floatMax]

lemma intMax_pos : ∀ d : DType, isIntD d = true → 1 ≤ intMax d := by decide

lemma intMin_nonpos (d : DType) : intMin d ≤ 0 := by
  unfold intMin
  cases d <;> simp [isUnsignedD, intMax] <;> norm_num

lemma intMin_unsigned {d : DType} (h : isUnsignedD d = true) : intMin d = 0 := by
  simp [intMin, h]

lemma intMin_signed {d : DType} (h : isUnsignedD d = false) : intMin d = -(intMax d + 1) := by
  simp [intMin, h]

lemma neg_card_le_intMin (d : DType) : -(intMax d + 1) ≤ intMin d := by
  unfold intMin
  split
  · have : 0 ≤ intMax d := by cases d <;> simp [intMax] <;> norm_num
    omega
  · omega

lemma foldl_min_le (l : List ℚ) : ∀ a : ℚ, l.foldl min a ≤ a ∧ ∀ x ∈ l, l.foldl min a ≤ x := by
  induction l with
  | nil => intro a; exact ⟨le_refl _, by simp⟩
  | cons b bs ih =>
    intro a
    refine ⟨le_trans (ih (min a b)).1 (min_le_left a b), ?_⟩
    intro x hx
    rcases List.mem_cons.mp hx with h | h
    · subst h; exact le_trans (ih (min a x)).1 (min_le_right a x)
    · exact (ih (min a b)).2 x h

lemma le_foldl_max (l : List ℚ) : ∀ a : ℚ, a ≤ l.foldl max a ∧ ∀ x ∈ l, x ≤ l.foldl max a := by
  induction l with
  | nil => intro a; exact ⟨le_refl _, by simp⟩
  | cons b bs ih =>
    intro a
    refine ⟨le_trans (le_max_left a b) (ih (max a b)).1, ?_⟩
    intro x hx
    rcases List.mem_cons.mp hx with h | h
    · subst h; exact le_trans (le_max_right a x) (ih (max a x)).1
    · exact (ih (max a b)).2 x h

lemma foldl_min_mem (l : List ℚ) : ∀ a : ℚ, l.foldl min a = a ∨ l.foldl min a ∈ l := by
  induction l with
  | nil => intro a; exact .inl rfl
  | cons b bs ih =>
    intro a
    rcases ih (min a b) with h | h
    · rcases min_choice a b with h2 | h2
      · exact .inl (h.trans h2)
      · exact .inr (List.mem_cons.mpr (.inl (h.trans h2)))
    · exact .inr (List.mem_cons.mpr (.inr h))

lemma foldl_max_mem (l : List ℚ) : ∀ a : ℚ, l.foldl max a = a ∨ l.foldl max a ∈ l := by
  induction l with
  | nil => intro a; exact .inl rfl
  | cons b bs ih =>
    intro a
    rcases ih (max a b) with h | h
    · rcases max_choice a b with h2 | h2
      · exact .inl (h.trans h2)
      · exact .inr (List.mem_cons.mpr (.inl (h.trans h2)))
    · exact .inr (List.mem_cons.mpr (.inr h))

lemma listMinQ_le {l : List ℚ} {x : ℚ} (hx : x ∈ l) : listMinQ l ≤ x := by
  match l with
  | a :: as =>
    rcases List.mem_cons.mp hx with h | h
    · subst h; exact (foldl_min_le as x).1
    · exact (foldl_min_le as a).2 x h

lemma le_listMaxQ {l : List ℚ} {x : ℚ} (hx : x ∈ l) : x ≤ listMaxQ l := by
  match l with
  | a :: as =>
    rcases List.mem_cons.mp hx with h | h
    · subst h; exact (le_foldl_max as x).1
    · exact (le_foldl_max as a).2 x h

lemma listMinQ_mem {l : List ℚ} (h : l ≠ []) : listMinQ l ∈ l := by
  match l with
  | a :: as =>
    rcases foldl_min_mem as a with h2 | h2
    · exact List.mem_cons.mpr (.inl h2)
    · exact List.mem_cons.mpr (.inr h2)

lemma listMaxQ_mem {l : List ℚ} (h : l ≠ []) : listMaxQ l ∈ l := by
  match l with
  | a :: as =>
    rcases foldl_max_mem as a with h2 | h2
    · exact List.mem_cons.mpr (.inl h2)
    · exact List.mem_cons.mpr (.inr h2)

lemma convert_same (a : NpArray) (t : TypeArg) (m : Bool) (h : dtypeMatches a.dtype t = true) :
    convert_to_type_incl_scaling a t m = .ok (some a) := by
  unfold convert_to_type_incl_scaling
  rw [if_pos h]

lemma convert_int_int {d1 d2 : DType} (h1 : isIntD d1 = true) (h2 : isIntD d2 = true)
    (hne : d1 ≠ d2) (vs : List ℚ) (m : Bool) :
    convert_to_type_incl_scaling ⟨d1, vs⟩ (.inst d2) m =
      .ok (some ⟨d2, vs.map (int_int_fwd d1 d2)⟩) := by
  unfold convert_to_type_incl_scaling
  simp [dtypeMatches, hne, TypeArg.isIntKind, TypeArg.isFloatKind, TypeArg.dtype,
    int_not_float d1 h1, int_not_float d2 h2, h1, h2, convert_type_integers_incl_scaling]

lemma convert_float_float {d1 d2 : DType} (h1 : isFloatD d1 = true) (h2 : isFloatD d2 = true)
    (hne : d1 ≠ d2) (vs : List ℚ) (m : Bool) :
    convert_to_type_incl_scaling ⟨d1, vs⟩ (.inst d2) m =
      .ok (some ⟨d1, vs.map (fun v => v / floatMax d1 * floatMax d2)⟩) := by
  unfold convert_to_type_incl_scaling
  simp [dtypeMatches, hne, TypeArg.isIntKind, TypeArg.isFloatKind, TypeArg.dtype,
    h1, h2, convert_type_floats_incl_scaling]

lemma convert_int_float {d1 d2 : DType} (h1 : isIntD d1 = true) (h2 : isFloatD d2 = true)
    (vs : List ℚ) (m : Bool) :
    convert_to_type_incl_scaling ⟨d1, vs⟩ (.inst d2) m =
      .ok (some ⟨d2, vs.map (fun v =>
        v / ((intMax d1 : ℤ) : ℚ) * (if m then 1 else floatMax d2))⟩) := by
  have hne : d1 ≠ d2 := by
    intro h; rw [h] at h1; rw [float_not_int d2 h2] at h1; cases h1
  unfold convert_to_type_incl_scaling
  simp [dtypeMatches, hne, TypeArg.isIntKind, TypeArg.isFloatKind, TypeArg.dtype,
    int_not_float d1 h1, float_not_int d2 h2, h1, h2, max_value_for_type,
    truncToType]

lemma convert_float_int {d1 d2 : DType} (h1 : isFloatD d1 = true) (h2 : isIntD d2 = true)
    (vs : List ℚ) (m : Bool) :
    convert_to_type_incl_scaling ⟨d1, vs⟩ (.inst d2) m =
      .ok (some ⟨d2, vs.map (fun v => truncToType d2
        (if m then v * ((intMax d2 : ℤ) : ℚ)
         else v / floatMax d1 * ((intMax d2 : ℤ) : ℚ)))⟩) := by
  have hne : d1 ≠ d2 := by
    intro h; rw [h] at h1; rw [int_not_float d2 h2] at h1; cases h1
  unfold convert_to_type_incl_scaling
  cases m with
  | true =>
    simp [dtypeMatches, hne, TypeArg.isIntKind, TypeArg.isFloatKind, TypeArg.dtype,
      float_not_int d1 h1, int_not_float d2 h2, h1, h2, max_value_for_type]
  | false =>
    simp [dtypeMatches, hne, TypeArg.isIntKind, TypeArg.isFloatKind, TypeArg.dtype,
      float_not_int d1 h1, int_not_float d2 h2, h1, h2, max_value_for_type]

lemma card_ratio {d1 d2 : DType} (h1 : isIntD d1 = true) (h2 : isIntD d2 = true)
    (hlt : intMax d2 < intMax d1) :
    ∃ r : ℤ, 2 ≤ r ∧ intMax d1 + 1 = (intMax d2 + 1) * r ∧
      (((intMax d1 : ℤ) : ℚ) + 1) / (((intMax d2 : ℤ) : ℚ) + 1) = (r : ℚ) := by
  obtain ⟨hmod, hdiv⟩ := intMax_card_dvd d1 d2 h1 h2 hlt
  have hdvd : (intMax d2 + 1) ∣ (intMax d1 + 1) := Int.dvd_of_emod_eq_zero hmod
  refine ⟨(intMax d1 + 1) / (intMax d2 + 1), hdiv, (Int.mul_ediv_cancel' hdvd).symm, ?_⟩
  have hc2 : (0 : ℚ) < ((intMax d2 : ℤ) : ℚ) + 1 := by
    have := intMax_pos d2 h2
    have : (1 : ℚ) ≤ ((intMax d2 : ℤ) : ℚ) := by exact_mod_cast this
    linarith
  have hmul : intMax d1 + 1 = (intMax d2 + 1) * ((intMax d1 + 1) / (intMax d2 + 1)) :=
    (Int.mul_ediv_cancel' hdvd).symm
  have hc1 : (((intMax d1 : ℤ) : ℚ) + 1) =
      (((intMax d2 : ℤ) : ℚ) + 1) * (((intMax d1 + 1) / (intMax d2 + 1) : ℤ) : ℚ) := by
    have h := congrArg (fun z : ℤ => (z : ℚ)) hmul
    push_cast at h
    linarith
  rw [hc1]
  exact mul_div_cancel_left₀ _ (ne_of_gt hc2)

lemma int_int_fwd_shrink_eval {d1 d2 : DType} (h2 : isIntD d2 = true)
    {r : ℤ} (hratio : (((intMax d1 : ℤ) : ℚ) + 1) / (((intMax d2 : ℤ) : ℚ) + 1) = (r : ℚ))
    (hltQ : ((intMax d2 : ℤ) : ℚ) + 1 < ((intMax d1 : ℤ) : ℚ) + 1) (v : ℚ) :
    int_int_fwd d1 d2 v = truncToType d2 (v / (r : ℚ)) := by
  unfold int_int_fwd
  rw [if_pos hltQ, hratio]

lemma int_int_fwd_grow_eval {d1 d2 : DType}
    {r : ℤ} (hratio : (((intMax d2 : ℤ) : ℚ) + 1) / (((intMax d1 : ℤ) : ℚ) + 1) = (r : ℚ))
    (hge : ¬(((intMax d2 : ℤ) : ℚ) + 1 < ((intMax d1 : ℤ) : ℚ) + 1)) (v : ℚ) :
    int_int_fwd d1 d2 v = truncToType d2 (v * (r : ℚ)) := by
  unfold int_int_fwd
  rw [if_neg hge, hratio]

lemma int_int_round_shrink {d1 d2 : DType} (h1 : isIntD d1 = true) (h2 : isIntD d2 = true)
    (hlt : intMax d2 < intMax d1) {v : ℚ}
    (hlo : (intMin d1 : ℚ) ≤ v) (hhi : v ≤ ((intMax d1 : ℤ) : ℚ))
    (hs : isUnsignedD d2 = true → 0 ≤ v) :
    |v - int_int_fwd d2 d1 (int_int_fwd d1 d2 v)| ≤
      (((intMax d1 : ℤ) : ℚ) + 1) / (((intMax d2 : ℤ) : ℚ) + 1) := by
  obtain ⟨r, hr2, hcard, hratio⟩ := card_ratio h1 h2 hlt
  have hrQ : (0 : ℚ) < (r : ℚ) := by
    have : (2 : ℚ) ≤ (r : ℚ) := by exact_mod_cast hr2
    linarith
  have hltQ : ((intMax d2 : ℤ) : ℚ) + 1 < ((intMax d1 : ℤ) : ℚ) + 1 := by
    have : intMax d2 + 1 < intMax d1 + 1 := by omega
    exact_mod_cast this
  -- evaluate the forward (shrinking) conversion
  rw [int_int_fwd_shrink_eval h2 hratio hltQ v]
  have hcardQ : ((intMax d1 : ℤ) : ℚ) + 1 = (((intMax d2 : ℤ) : ℚ) + 1) * (r : ℚ) := by
    have h := congrArg (fun z : ℤ => (z : ℚ)) hcard
    push_cast at h
    linarith
  -- bounds on the scaled value
  have hq_up : v / (r : ℚ) < ((intMax d2 : ℤ) : ℚ) + 1 := by
    rw [div_lt_iff hrQ]
    calc v ≤ ((intMax d1 : ℤ) : ℚ) := hhi
    _ < ((intMax d1 : ℤ) : ℚ) + 1 := by linarith
    _ = (((intMax d2 : ℤ) : ℚ) + 1) * (r : ℚ) := hcardQ
  have hq_lo : (intMin d2 : ℚ) ≤ v / (r : ℚ) := by
    by_cases hu : isUnsignedD d2 = true
    · rw [intMin_unsigned hu]
      push_cast
      exact div_nonneg (hs hu) (le_of_lt hrQ)
    · rw [intMin_signed (by simpa using hu)]
      have hmin1 : -(((intMax d1 : ℤ) : ℚ) + 1) ≤ v := by
        have h := neg_card_le_intMin d1
        have h' : ((-(intMax d1 + 1) : ℤ) : ℚ) ≤ (intMin d1 : ℚ) := by exact_mod_cast h
        push_cast at h'
        linarith
      rw [le_div_iff hrQ]
      push_cast
      calc (-(((intMax d2 : ℤ) : ℚ) + 1)) * (r : ℚ) = -((((intMax d2 : ℤ) : ℚ) + 1) * (r : ℚ)) := by ring
      _ = -(((intMax d1 : ℤ) : ℚ) + 1) := by rw [← hcardQ]
      _ ≤ v := hmin1
  have hminQ2 : (intMin d2 : ℚ) ≤ v / (r : ℚ) := hq_lo
  obtain ⟨hw_eq, hw_lo, hw_hi⟩ := truncToType_int_range h2 hminQ2 hq_up
  rw [hw_eq]
  -- evaluate the backward (growing) conversion
  set w : ℤ := ratTrunc (v / (r : ℚ)) with hw_def
  have hge : ¬(((intMax d1 : ℤ) : ℚ) + 1 < ((intMax d2 : ℤ) : ℚ) + 1) := by linarith
  rw [int_int_fwd_grow_eval hratio hge ((w : ℤ) : ℚ)]
  have hcast : ((w : ℤ) : ℚ) * (r : ℚ) = ((w * r : ℤ) : ℚ) := by push_cast; ring
  rw [hcast]
  -- the product is in the source dtype's range, so the cast is the identity
  have hr0 : (0 : ℤ) ≤ r := by omega
  have hwr_hi : w * r ≤ intMax d1 := by
    have h := mul_le_mul_of_nonneg_right hw_hi hr0
    have hexp : (intMax d2 + 1) * r = intMax d2 * r + r := by ring
    omega
  have hwr_lo : intMin d1 ≤ w * r := by
    by_cases hu1 : isUnsignedD d1 = true
    · rw [intMin_unsigned hu1]
      have hv0 : (0 : ℚ) ≤ v := by
        rw [intMin_unsigned hu1] at hlo
        exact_mod_cast hlo
      have : (0 : ℤ) ≤ w := by
        rw [hw_def]
        exact ratTrunc_nonneg (div_nonneg hv0 (le_of_lt hrQ))
      positivity
    · rw [intMin_signed (by simpa using hu1)]
      have h2' : -(intMax d2 + 1) ≤ w := le_trans (neg_card_le_intMin d2) hw_lo
      have h := mul_le_mul_of_nonneg_right h2' hr0
      have hexp : (-(intMax d2 + 1)) * r = -((intMax d2 + 1) * r) := by ring
      omega
  have htr : truncToType d1 ((w * r : ℤ) : ℚ) = ((w * r : ℤ) : ℚ) := by
    rw [truncToType_int_eq h1, ratTrunc_intCast, wrapInt_eq_self hwr_lo hwr_hi]
  rw [htr, hratio]
  -- the distance bound
  have habs := abs_sub_ratTrunc_lt_one (v / (r : ℚ))
  have hveq : v - ((w * r : ℤ) : ℚ) = (v / (r : ℚ) - (w : ℚ)) * (r : ℚ) := by
    push_cast
    field_simp
    ring
  rw [hveq, abs_mul, abs_of_pos hrQ]
  calc |v / (r : ℚ) - (w : ℚ)| * (r : ℚ) ≤ 1 * (r : ℚ) := by
        apply mul_le_mul_of_nonneg_right _ (le_of_lt hrQ)
        rw [hw_def]
        exact le_of_lt habs
  _ = (r : ℚ) := one_mul _

lemma int_int_round_grow {d1 d2 : DType} (h1 : isIntD d1 = true) (h2 : isIntD d2 = true)
    (hlt : intMax d1 < intMax d2) {v : ℚ}
    (hk : ∃ k : ℤ, v = (k : ℚ))
    (hlo : (intMin d1 : ℚ) ≤ v) (hhi : v ≤ ((intMax d1 : ℤ) : ℚ))
    (hs : isUnsignedD d2 = true → 0 ≤ v) :
    int_int_fwd d2 d1 (int_int_fwd d1 d2 v) = v := by
  obtain ⟨k, rfl⟩ := hk
  obtain ⟨r, hr2, hcard, hratio⟩ := card_ratio h2 h1 hlt
  have hrQ : (0 : ℚ) < (r : ℚ) := by
    have : (2 : ℚ) ≤ (r : ℚ) := by exact_mod_cast hr2
    linarith
  have hr0 : (0 : ℤ) ≤ r := by omega
  have hkhi : k ≤ intMax d1 := by exact_mod_cast hhi
  have hklo : intMin d1 ≤ k := by exact_mod_cast hlo
  have hge : ¬(((intMax d2 : ℤ) : ℚ) + 1 < ((intMax d1 : ℤ) : ℚ) + 1) := by
    have : intMax d1 + 1 ≤ intMax d2 + 1 := by omega
    have h' : ((intMax d1 : ℤ) : ℚ) + 1 ≤ ((intMax d2 : ℤ) : ℚ) + 1 := by exact_mod_cast this
    linarith
  -- evaluate the forward (growing) conversion: exact integer scale-up
  rw [int_int_fwd_grow_eval hratio hge ((k : ℤ) : ℚ)]
  have hcast : ((k : ℤ) : ℚ) * (r : ℚ) = ((k * r : ℤ) : ℚ) := by push_cast; ring
  rw [hcast]
  -- k * r is in the target range
  have hkr_hi : k * r ≤ intMax d2 := by
    have h := mul_le_mul_of_nonneg_right hkhi hr0
    have hexp : (intMax d1 + 1) * r = intMax d1 * r + r := by ring
    omega
  have hkr_lo : intMin d2 ≤ k * r := by
    by_cases hu2 : isUnsignedD d2 = true
    · rw [intMin_unsigned hu2]
      have hk0 : (0 : ℤ) ≤ k := by exact_mod_cast hs hu2
      positivity
    · rw [intMin_signed (by simpa using hu2)]
      have h1' : -(intMax d1 + 1) ≤ k := le_trans (neg_card_le_intMin d1) hklo
      have h := mul_le_mul_of_nonneg_right h1' hr0
      have hexp : (-(intMax d1 + 1)) * r = -((intMax d1 + 1) * r) := by ring
      omega
  have htr2 : truncToType d2 ((k * r : ℤ) : ℚ) = ((k * r : ℤ) : ℚ) := by
    rw [truncToType_int_eq h2, ratTrunc_intCast, wrapInt_eq_self hkr_lo hkr_hi]
  rw [htr2]
  -- evaluate the backward (shrinking) conversion: divide by the same ratio
  have hltQ : ((intMax d1 : ℤ) : ℚ) + 1 < ((intMax d2 : ℤ) : ℚ) + 1 := by
    have : intMax d1 + 1 < intMax d2 + 1 := by omega
    exact_mod_cast this
  rw [int_int_fwd_shrink_eval h1 hratio hltQ ((k * r : ℤ) : ℚ)]
  have hdiv : ((k * r : ℤ) : ℚ) / (r : ℚ) = ((k : ℤ) : ℚ) := by
    push_cast
    field_simp
  rw [hdiv, truncToType_int_eq h1, ratTrunc_intCast, wrapInt_eq_self hklo hkhi]

lemma int_float_round {d1 d2 : DType} (h1 : isIntD d1 = true) (h2 : isFloatD d2 = true)
    (m : Bool) {v : ℚ} (hk : ∃ k : ℤ, v = (k : ℚ))
    (hlo : (intMin d1 : ℚ) ≤ v) (hhi : v ≤ ((intMax d1 : ℤ) : ℚ)) :
    truncToType d1
      (if m then (v / ((intMax d1 : ℤ) : ℚ) * (if m then 1 else floatMax d2)) * ((intMax d1 : ℤ) : ℚ)
       else (v / ((intMax d1 : ℤ) : ℚ) * (if m then 1 else floatMax d2)) / floatMax d2 *
         ((intMax d1 : ℤ) : ℚ)) = v := by
  obtain ⟨k, rfl⟩ := hk
  have hm1 : (1 : ℚ) ≤ ((intMax d1 : ℤ) : ℚ) := by exact_mod_cast intMax_pos d1 h1
  have hm1ne : ((intMax d1 : ℤ) : ℚ) ≠ 0 := by linarith
  have hf2 : (0 : ℚ) < floatMax d2 := floatMax_pos d2 h2
  have hf2ne : floatMax d2 ≠ 0 := ne_of_gt hf2
  have hklo : intMin d1 ≤ k := by exact_mod_cast hlo
  have hkhi : k ≤ intMax d1 := by exact_mod_cast hhi
  have harg : (if m then ((k : ℚ) / ((intMax d1 : ℤ) : ℚ) * (if m then 1 else floatMax d2)) *
        ((intMax d1 : ℤ) : ℚ)
      else ((k : ℚ) / ((intMax d1 : ℤ) : ℚ) * (if m then 1 else floatMax d2)) / floatMax d2 *
        ((intMax d1 : ℤ) : ℚ)) = (k : ℚ) := by
    cases m with
    | true => rw [if_pos rfl, if_pos rfl]; field_simp
    | false => rw [if_neg (by decide), if_neg (by decide)]; field_simp; ring
  rw [harg, truncToType_int_eq h1, ratTrunc_intCast, wrapInt_eq_self hklo hkhi]

lemma float_int_round {d1 d2 : DType} (h1 : isFloatD d1 = true) (h2 : isIntD d2 = true)
    (m : Bool) {v : ℚ} (h0 : 0 ≤ v) (hub : v ≤ (if m then 1 else floatMax d1)) :
    |v - (truncToType d2 (if m then v * ((intMax d2 : ℤ) : ℚ)
            else v / floatMax d1 * ((intMax d2 : ℤ) : ℚ))) / ((intMax d2 : ℤ) : ℚ) *
          (if m then 1 else floatMax d1)| ≤
      (if m then 1 else floatMax d1) / ((intMax d2 : ℤ) : ℚ) := by
  have hm2 : (1 : ℚ) ≤ ((intMax d2 : ℤ) : ℚ) := by exact_mod_cast intMax_pos d2 h2
  have hm2pos : (0 : ℚ) < ((intMax d2 : ℤ) : ℚ) := by linarith
  have hf1 : (0 : ℚ) < floatMax d1 := floatMax_pos d1 h1
  have hB : (0 : ℚ) < (if m then 1 else floatMax d1) := by
    cases m with
    | true => norm_num
    | false => simpa using hf1
  -- the argument of the cast, uniformly
  have harg : (if m then v * ((intMax d2 : ℤ) : ℚ)
      else v / floatMax d1 * ((intMax d2 : ℤ) : ℚ)) =
      v / (if m then 1 else floatMax d1) * ((intMax d2 : ℤ) : ℚ) := by
    cases m with
    | true => simp
    | false => rfl
  rw [harg]
  have hvB0 : 0 ≤ v / (if m then 1 else floatMax d1) := div_nonneg h0 (le_of_lt hB)
  have hvB1 : v / (if m then 1 else floatMax d1) ≤ 1 := by
    rw [div_le_one hB]
    simpa using hub
  have hq0 : 0 ≤ v / (if m then 1 else floatMax d1) * ((intMax d2 : ℤ) : ℚ) :=
    mul_nonneg hvB0 (le_of_lt hm2pos)
  have hqup : v / (if m then 1 else floatMax d1) * ((intMax d2 : ℤ) : ℚ) <
      ((intMax d2 : ℤ) : ℚ) + 1 := by
    have : v / (if m then 1 else floatMax d1) * ((intMax d2 : ℤ) : ℚ) ≤
        1 * ((intMax d2 : ℤ) : ℚ) := mul_le_mul_of_nonneg_right hvB1 (le_of_lt hm2pos)
    linarith
  have hminle : (intMin d2 : ℚ) ≤ v / (if m then 1 else floatMax d1) * ((intMax d2 : ℤ) : ℚ) := by
    have : (intMin d2 : ℚ) ≤ 0 := by exact_mod_cast intMin_nonpos d2
    linarith
  obtain ⟨hw_eq, hw_lo, hw_hi⟩ := truncToType_int_range h2 hminle hqup
  rw [hw_eq]
  set q : ℚ := v / (if m then 1 else floatMax d1) * ((intMax d2 : ℤ) : ℚ) with hq_def
  have habs := abs_sub_ratTrunc_lt_one q
  have hrewrite : v - ((ratTrunc q : ℤ) : ℚ) / ((intMax d2 : ℤ) : ℚ) *
      (if m then 1 else floatMax d1) =
      (q - ((ratTrunc q : ℤ) : ℚ)) * ((if m then 1 else floatMax d1) / ((intMax d2 : ℤ) : ℚ)) := by
    rw [hq_def]
    field_simp
    ring
  rw [hrewrite, abs_mul]
  have hBd : (0 : ℚ) < (if m then 1 else floatMax d1) / ((intMax d2 : ℤ) : ℚ) :=
    div_pos hB hm2pos
  rw [abs_of_pos hBd]
  calc |q - ((ratTrunc q : ℤ) : ℚ)| * ((if m then 1 else floatMax d1) / ((intMax d2 : ℤ) : ℚ)) ≤
      1 * ((if m then 1 else floatMax d1) / ((intMax d2 : ℤ) : ℚ)) :=
        mul_le_mul_of_nonneg_right (le_of_lt habs) (le_of_lt hBd)
  _ = (if m then 1 else floatMax d1) / ((intMax d2 : ℤ) : ℚ) := one_mul _

lemma intMax_nonneg_all : ∀ d : DType, 0 ≤ intMax d := by decide

lemma floatMax_nonneg : ∀ d : DType, 0 ≤ floatMax d := by
  intro d
  cases d <;> norm_num [floatMax]

lemma quantStep_nonneg (d1 d2 : DType) (m : Bool) : 0 ≤ quantStep d1 d2 m := by
  have hA : (0 : ℚ) ≤ ((intMax d1 : ℤ) : ℚ) := by exact_mod_cast intMax_nonneg_all d1
  have hB : (0 : ℚ) ≤ ((intMax d2 : ℤ) : ℚ) := by exact_mod_cast intMax_nonneg_all d2
  have hD : (0 : ℚ) ≤ (if m then (1 : ℚ) else floatMax d1) := by
    cases m with
    | true => norm_num
    | false => simpa using floatMax_nonneg d1
  have hF : (0 : ℚ) ≤ floatMax d1 := floatMax_nonneg d1
  unfold quantStep
  split_ifs <;> first
  | exact div_nonneg (by linarith) (by linarith)
  | norm_num

lemma get_map_eq {α β : Type} (f : α → β) (l : List α) (i : Nat) (hi : i < l.length)
    (hi2 : i < (l.map f).length) : (l.map f).get ⟨i, hi2⟩ = f (l.get ⟨i, hi⟩) := by
  simp

lemma inRange_int {d : DType} (hd : isIntD d = true) (m : Bool) {v : ℚ} (h : inRange d m v) :
    (∃ k : ℤ, v = (k : ℚ)) ∧ (intMin d : ℚ) ≤ v ∧ v ≤ ((intMax d : ℤ) : ℚ) := by
  unfold inRange at h
  rw [if_pos hd] at h
  exact h

lemma inRange_float {d : DType} (hd : isFloatD d = true) (m : Bool) {v : ℚ} (h : inRange d m v) :
    0 ≤ v ∧ v ≤ (if m then 1 else floatMax d) := by
  unfold inRange at h
  rw [if_neg (by rw [float_not_int d hd]; simp), if_pos hd] at h
  exact h

/-- C6 (amended): for arrays of in-range values, converting to a second
supported dtype and back with the same `float_max_is_1` flag recovers every
value to within one quantization step of the narrower dtype — provided the
values are nonnegative whenever the intermediate dtype is unsigned (the
source warns and drops signs there), and the two dtypes are not two distinct
float dtypes (the misplaced `astype` in `convert_type_floats_incl_scaling`
keeps the source dtype, so the second conversion short-circuits). -/
theorem c6_round_trip (d1 d2 : DType) (m : Bool) (vs : List ℚ)
    (h1 : isIntD d1 = true ∨ isFloatD d1 = true)
    (h2 : isIntD d2 = true ∨ isFloatD d2 = true)
    (hvals : ∀ v ∈ vs, inRange d1 m v)
    (hsign : isUnsignedD d2 = true → ∀ v ∈ vs, 0 ≤ v)
    (hff : ¬(isFloatD d1 = true ∧ isFloatD d2 = true ∧ d1 ≠ d2)) :
    ∃ b c : NpArray,
      convert_to_type_incl_scaling ⟨d1, vs⟩ (.inst d2) m = .ok (some b) ∧
      convert_to_type_incl_scaling b (.inst d1) m = .ok (some c) ∧
      c.vals.length = vs.length ∧
      ∀ i : Nat, ∀ hi : i < vs.length, ∀ hi2 : i < c.vals.length,
        |vs.get ⟨i, hi⟩ - c.vals.get ⟨i, hi2⟩| ≤ quantStep d1 d2 m := by
  by_cases heq : d1 = d2
  · subst heq
    refine ⟨⟨d1, vs⟩, ⟨d1, vs⟩, ?_, ?_, rfl, ?_⟩
    · exact convert_same ⟨d1, vs⟩ (.inst d1) m (by simp [dtypeMatches])
    · exact convert_same ⟨d1, vs⟩ (.inst d1) m (by simp [dtypeMatches])
    · intro i hi hi2
      simp only [sub_self, abs_zero]
      exact quantStep_nonneg d1 d1 m
  · rcases h1 with hi1 | hf1
    · rcases h2 with hi2 | hf2
      · -- integer to integer and back
        refine ⟨_, _, convert_int_int hi1 hi2 heq vs m,
          convert_int_int hi2 hi1 (Ne.symm heq) _ m, by simp, ?_⟩
        intro i hi hi2'
        have hlen : i < (vs.map (int_int_fwd d1 d2)).length := by simpa using hi
        rw [get_map_eq (int_int_fwd d2 d1) _ i hlen hi2',
          get_map_eq (int_int_fwd d1 d2) vs i hi hlen]
        set v := vs.get ⟨i, hi⟩ with hv_def
        have hmem : v ∈ vs := List.get_mem vs i hi
        obtain ⟨hk, hlo, hhi⟩ := inRange_int hi1 m (hvals v hmem)
        have hstep : isUnsignedD d2 = true → 0 ≤ v := fun h => hsign h v hmem
        rcases lt_trichotomy (intMax d1) (intMax d2) with hlt | heqM | hgt
        · rw [int_int_round_grow hi1 hi2 hlt hk hlo hhi hstep]
          simp only [sub_self, abs_zero]
          exact quantStep_nonneg d1 d2 m
        · exact absurd (intMax_card_distinct d1 d2 hi1 hi2 heqM) heq
        · have hbound := int_int_round_shrink hi1 hi2 hgt hlo hhi hstep
          have hq : quantStep d1 d2 m =
              (((intMax d1 : ℤ) : ℚ) + 1) / (((intMax d2 : ℤ) : ℚ) + 1) := by
            unfold quantStep
            rw [if_pos (by rw [hi1, hi2]; rfl), if_pos hgt]
          rw [hq]
          exact hbound
      · -- integer to float and back: exact recovery
        refine ⟨_, _, convert_int_float hi1 hf2 vs m,
          convert_float_int hf2 hi1 _ m, by simp, ?_⟩
        intro i hi hi2'
        have hlen : i < (vs.map
            (fun v => v / ((intMax d1 : ℤ) : ℚ) * (if m then 1 else floatMax d2))).length := by
          simpa using hi
        rw [get_map_eq _ _ i hlen hi2', get_map_eq _ vs i hi hlen]
        set v := vs.get ⟨i, hi⟩ with hv_def
        have hmem : v ∈ vs := List.get_mem vs i hi
        obtain ⟨hk, hlo, hhi⟩ := inRange_int hi1 m (hvals v hmem)
        rw [int_float_round hi1 hf2 m hk hlo hhi]
        simp only [sub_self, abs_zero]
        exact quantStep_nonneg d1 d2 m
    · rcases h2 with hi2 | hf2
      · -- float to integer and back: within one step of the integer grid
        refine ⟨_, _, convert_float_int hf1 hi2 vs m,
          convert_int_float hi2 hf1 _ m, by simp, ?_⟩
        intro i hi hi2'
        have hlen : i < (vs.map (fun v => truncToType d2
            (if m then v * ((intMax d2 : ℤ) : ℚ)
             else v / floatMax d1 * ((intMax d2 : ℤ) : ℚ)))).length := by
          simpa using hi
        rw [get_map_eq _ _ i hlen hi2', get_map_eq _ vs i hi hlen]
        set v := vs.get ⟨i, hi⟩ with hv_def
        have hmem : v ∈ vs := List.get_mem vs i hi
        obtain ⟨h0, hub⟩ := inRange_float hf1 m (hvals v hmem)
        have hbound := float_int_round hf1 hi2 m h0 hub
        have hq : quantStep d1 d2 m =
            (if m then 1 else floatMax d1) / ((intMax d2 : ℤ) : ℚ) := by
          unfold quantStep
          rw [if_neg (by rw [float_not_int d1 hf1]; simp),
            if_neg (by rw [float_not_int d1 hf1]; simp),
            if_pos (by rw [hf1, hi2]; rfl)]
        rw [hq]
        exact hbound
      · exact absurd ⟨hf1, hf2, heq⟩ hff

lemma int_int_fwd_eval {d1 d2 : DType} (h2 : isIntD d2 = true) (v : ℚ) (k : ℤ)
    (hk : (if ((intMax d2 : ℤ) : ℚ) + 1 < ((intMax d1 : ℤ) : ℚ) + 1
        then v / ((((intMax d1 : ℤ) : ℚ) + 1) / (((intMax d2 : ℤ) : ℚ) + 1))
        else v * ((((intMax d2 : ℤ) : ℚ) + 1) / (((intMax d1 : ℤ) : ℚ) + 1))) = (k : ℚ)) :
    int_int_fwd d1 d2 v = ((wrapInt d2 k : ℤ) : ℚ) := by
  unfold int_int_fwd
  by_cases h : ((intMax d2 : ℤ) : ℚ) + 1 < ((intMax d1 : ℤ) : ℚ) + 1
  · rw [if_pos h] at hk
    rw [if_pos h, hk, truncToType_int_eq h2, ratTrunc_intCast]
  · rw [if_neg h] at hk
    rw [if_neg h, hk, truncToType_int_eq h2, ratTrunc_intCast]

/-- C6 counterexample: the round-trip claim fails as stated.  A full-negative
int8 value pushed through uint8 comes back as 0 (sign dropped by the
unsigned cast), and EITHER direction between the two float dtypes comes back
rescaled by the full float64/float32 max ratio, because the misplaced
`astype` leaves the intermediate array with its source dtype so the second
conversion is either a dtype-equality no-op or a repeated rescale.  All
inputs are within the source dtype's natural range. -/
theorem c6_counterexample :
    (convert_to_type_incl_scaling ⟨.i8, [-128]⟩ (.inst .u8) true = .ok (some ⟨.u8, [0]⟩)) ∧
    (convert_to_type_incl_scaling ⟨.u8, [0]⟩ (.inst .i8) true = .ok (some ⟨.i8, [0]⟩)) ∧
    inRange .i8 true (-128) ∧
    ¬(|(-128 : ℚ) - 0| ≤ quantStep .i8 .u8 true) ∧
    (convert_to_type_incl_scaling ⟨.f64, [1]⟩ (.inst .f32) true =
      .ok (some ⟨.f64, [floatMax .f32 / floatMax .f64]⟩)) ∧
    (convert_to_type_incl_scaling ⟨.f64, [floatMax .f32 / floatMax .f64]⟩ (.inst .f64) true =
      .ok (some ⟨.f64, [floatMax .f32 / floatMax .f64]⟩)) ∧
    inRange .f64 true 1 ∧
    ¬(|(1 : ℚ) - floatMax .f32 / floatMax .f64| ≤ quantStep .f64 .f32 true) ∧
    (convert_to_type_incl_scaling ⟨.f32, [1]⟩ (.inst .f64) true =
      .ok (some ⟨.f32, [floatMax .f64 / floatMax .f32]⟩)) ∧
    (convert_to_type_incl_scaling ⟨.f32, [floatMax .f64 / floatMax .f32]⟩ (.inst .f32) true =
      .ok (some ⟨.f32, [floatMax .f64 / floatMax .f32]⟩)) ∧
    inRange .f32 true 1 ∧
    ¬(|(1 : ℚ) - floatMax .f64 / floatMax .f32| ≤ quantStep .f32 .f64 true) := by
  have hmax32 : floatMax .f32 = (2 ^ 24 - 1) * 2 ^ 104 := rfl
  have hmax64 : floatMax .f64 = (2 ^ 53 - 1) * 2 ^ 971 := rfl
  refine ⟨?_, ?_, ?_, ?_, ?_, ?_, ?_, ?_, ?_, ?_, ?_, ?_⟩
  · rw [convert_int_int (by decide) (by decide) (by decide)]
    have h1 : int_int_fwd .i8 .u8 (-128) = ((wrapInt .u8 (-256) : ℤ) : ℚ) :=
      int_int_fwd_eval (by decide) (-128) (-256) (by norm_num [intMax])
    have h2 : wrapInt .u8 (-256) = 0 := by decide
    simp [h1, h2]
  · rw [convert_int_int (by decide) (by decide) (by decide)]
    have h1 : int_int_fwd .u8 .i8 0 = ((wrapInt .i8 0 : ℤ) : ℚ) :=
      int_int_fwd_eval (by decide) 0 0 (by norm_num [intMax])
    have h2 : wrapInt .i8 0 = 0 := by decide
    simp [h1, h2]
  · refine ⟨⟨-128, by norm_num⟩, ?_, ?_⟩ <;> norm_num [inRange, intMin, intMax, isUnsignedD]
  · have : quantStep .i8 .u8 true = 1 := by
      unfold quantStep
      rw [if_pos (by decide), if_neg (by norm_num [intMax])]
    rw [this]
    norm_num
  · rw [convert_float_float (by decide) (by decide) (by decide)]
    simp only [List.map]
    rw [hmax32, hmax64]
    norm_num
  · exact convert_same _ (.inst .f64) true (by decide)
  · norm_num [inRange, isIntD, isFloatD]
  · have hq : quantStep .f64 .f32 true = 1 / 2 ^ 23 := by
      unfold quantStep
      rw [if_neg (by decide), if_neg (by decide), if_neg (by decide), if_pos (by decide),
        if_neg (by decide)]
    rw [hq, hmax32, hmax64]
    rw [abs_of_nonneg (by positivity <;> norm_num)]
    norm_num
  · rw [convert_float_float (by decide) (by decide) (by decide)]
    simp only [List.map]
    rw [hmax32, hmax64]
    norm_num
  · exact convert_same _ (.inst .f32) true (by decide)
  · norm_num [inRange, isIntD, isFloatD]
  · have hq : quantStep .f32 .f64 true = 1 / 2 ^ 23 := by
      unfold quantStep
      rw [if_neg (by decide), if_neg (by decide), if_neg (by decide), if_pos (by decide),
        if_neg (by decide)]
    rw [hq, hmax32, hmax64]
    rw [abs_of_nonpos (by norm_num)]
    norm_num

/-- C6 witness: the amended round-trip theorem applied to a concrete
uint8 array converted through uint16 and back. -/
theorem c6_round_trip_witness :
    ∃ b c : NpArray,
      convert_to_type_incl_scaling ⟨.u8, [3]⟩ (.inst .u16) true = .ok (some b) ∧
      convert_to_type_incl_scaling b (.inst .u8) true = .ok (some c) ∧
      c.vals.length = [(3 : ℚ)].length ∧
      ∀ i : Nat, ∀ hi : i < [(3 : ℚ)].length, ∀ hi2 : i < c.vals.length,
        |[(3 : ℚ)].get ⟨i, hi⟩ - c.vals.get ⟨i, hi2⟩| ≤ quantStep .u8 .u16 true :=
  c6_round_trip .u8 .u16 true [3] (Or.inl rfl) (Or.inl rfl)
    (by
      intro v hv
      rw [List.mem_singleton] at hv
      subst hv
      exact ⟨⟨3, by norm_num⟩, by norm_num [intMin, intMax, isUnsignedD], by norm_num [intMax]⟩)
    (by
      intro _ v hv
      rw [List.mem_singleton] at hv
      subst hv
      norm_num)
    (by decide)

/-- C7: converting an array to its own dtype is the identity — the first
branch of `convert_to_type_incl_scaling` returns the input array itself for
every array and both flag values, whenever the target compares equal to the
array's dtype. -/
theorem c7_identity (a : NpArray) (t : TypeArg) (m : Bool)
    (h : dtypeMatches a.dtype t = true) :
    convert_to_type_incl_scaling a t m = .ok (some a) :=
  convert_same a t m h

/-- C7 witness: a float32 array is returned unchanged, for both flag values
and both ways of denoting the dtype. -/
theorem c7_identity_witness :
    convert_to_type_incl_scaling ⟨.f32, [1, 2]⟩ (.inst .f32) true = .ok (some ⟨.f32, [1, 2]⟩) ∧
    convert_to_type_incl_scaling ⟨.u8, [7]⟩ (.cls .u8) false = .ok (some ⟨.u8, [7]⟩) :=
  ⟨c7_identity ⟨.f32, [1, 2]⟩ (.inst .f32) true (by decide),
   c7_identity ⟨.u8, [7]⟩ (.cls .u8) false (by decide)⟩

/-- C2 counterexample: an array of non-numeric scalar kind does not make the
conversion fail — no branch of the if/elif chain applies and the function
silently returns Python `None` (modelled as `Except.ok Option.none`). -/
theorem c2_counterexample :
    convert_to_type_incl_scaling ⟨.npBool, [1]⟩ (.inst .u8) true = .ok none ∧
    convert_to_type_incl_scaling ⟨.npComplex, [1]⟩ (.inst .f32) false = .ok none := by
  constructor <;> rfl

/-- C2 (amended): for an array whose scalar kind is neither integer nor
floating and whose dtype differs from the target, `convert_to_type_incl_scaling`
falls through every branch and returns `None` — no exception is raised; only
`max_value_for_type`, called directly with such a type, raises
`ValueError("Unsupported data type")`. -/
theorem c2_unsupported_type (d : DType) (t : TypeArg) (m : Bool) (vs : List ℚ)
    (hint : isIntD d = false) (hfloat : isFloatD d = false)
    (hne : dtypeMatches d t = false) :
    convert_to_type_incl_scaling ⟨d, vs⟩ t m = .ok none ∧
    max_value_for_type (.inst d) = .error "ValueError: Unsupported data type" := by
  constructor
  · unfold convert_to_type_incl_scaling
    simp [hne, hint, hfloat]
  · unfold max_value_for_type
    simp [TypeArg.isIntKind, TypeArg.isFloatKind, TypeArg.dtype, hint, hfloat]

/-- C2 witness: the amended statement at a concrete bool array. -/
theorem c2_unsupported_type_witness :
    convert_to_type_incl_scaling ⟨.npBool, [1, 0]⟩ (.inst .u16) true = .ok none ∧
    max_value_for_type (.inst .npBool) = .error "ValueError: Unsupported data type" :=
  c2_unsupported_type .npBool (.inst .u16) true [1, 0] (by decide) (by decide) (by decide)

/-- C3: integer-to-integer conversion follows the cardinality-ratio rescale
description for every pair of distinct integer dtypes and either flag value,
and on the full-range uint8 array `[0, 255]` converted to uint16 it yields
exactly `[0, 65280]`. -/
theorem c3_integer_rescale (d1 d2 : DType) (h1 : isIntD d1 = true) (h2 : isIntD d2 = true)
    (hne : d1 ≠ d2) (vs : List ℚ) (m : Bool) :
    (∀ m' : Bool, convert_to_type_incl_scaling ⟨.u8, [0, 255]⟩ (.inst .u16) m' =
      .ok (some ⟨.u16, [0, 65280]⟩)) ∧
    convert_to_type_incl_scaling ⟨d1, vs⟩ (.inst d2) m =
      .ok (some ⟨d2, vs.map (integer_rescale_spec d1 d2)⟩) := by
  constructor
  · intro m'
    rw [convert_int_int (by decide) (by decide) (by decide)]
    have h0 : int_int_fwd .u8 .u16 0 = ((wrapInt .u16 0 : ℤ) : ℚ) :=
      int_int_fwd_eval (by decide) 0 0 (by norm_num [intMax])
    have h255 : int_int_fwd .u8 .u16 255 = ((wrapInt .u16 65280 : ℤ) : ℚ) :=
      int_int_fwd_eval (by decide) 255 65280 (by norm_num [intMax])
    have w0 : wrapInt .u16 0 = 0 := by decide
    have w255 : wrapInt .u16 65280 = 65280 := by decide
    simp [h0, h255, w0, w255]
  · rw [convert_int_int h1 h2 hne]
    have hfun : int_int_fwd d1 d2 = integer_rescale_spec d1 d2 := by
      funext v
      unfold int_int_fwd integer_rescale_spec
      by_cases h : intMax d2 + 1 < intMax d1 + 1
      · rw [if_pos h, if_pos (by exact_mod_cast h)]
      · rw [if_neg h, if_neg (by
          intro hq
          exact h (by exact_mod_cast hq))]
    rw [hfun]

/-- C3 witness: the rescale description instantiated both ways between uint8
and uint16, including the exact full-range values. -/
theorem c3_integer_rescale_witness :
    (∀ m' : Bool, convert_to_type_incl_scaling ⟨.u8, [0, 255]⟩ (.inst .u16) m' =
      .ok (some ⟨.u16, [0, 65280]⟩)) ∧
    convert_to_type_incl_scaling ⟨.u16, [512]⟩ (.inst .u8) false =
      .ok (some ⟨.u8, [(512 : ℚ)].map (integer_rescale_spec .u16 .u8)⟩) :=
  c3_integer_rescale .u16 .u8 (by decide) (by decide) (by decide) [512] false

/-- C5: on the name list `["X","Y","Z","Red","Green","Blue","Intensity"]`,
both copies of the field-name resolver assign every canonical role:
x→X, y→Y, z→Z, r→Red, g→Green, b→Blue, intensity→Intensity. -/
theorem c5_field_resolution :
    map_field_names ["X", "Y", "Z", "Red", "Green", "Blue", "Intensity"] =
      [("x", some "X"), ("y", some "Y"), ("z", some "Z"), ("r", some "Red"),
       ("g", some "Green"), ("b", some "Blue"), ("intensity", some "Intensity")] ∧
    map_field_names_util ["X", "Y", "Z", "Red", "Green", "Blue", "Intensity"] =
      [("x", some "X"), ("y", some "Y"), ("z", some "Z"), ("r", some "Red"),
       ("g", some "Green"), ("b", some "Blue"), ("intensity", some "Intensity")] := by
  constructor <;> decide

/-- C10 counterexample: not every non-dtype, non-builtin scalar type class
makes `max_value_for_type` return `None` — a class of non-numeric kind (here
`np.complex64`) raises `ValueError` instead. -/
theorem c10_counterexample :
    max_value_for_type (.cls .npComplex) = .error "ValueError: Unsupported data type" := by
  rfl

/-- C10 (amended): for every integer- or floating-kind numpy scalar type
class (not a dtype instance, not the builtins `int`/`float`),
`max_value_for_type` falls through its inner `isinstance`/equality tests and
returns `None`; consequently `write_e57`, which passes the class `np.uint8`
while converting floating-point colors, multiplies the color array by `None`
in the float-to-integer branch and raises instead of producing a uint8
array. -/
theorem c10_class_none (d df : DType) (vs : List ℚ)
    (hd : isIntD d = true ∨ isFloatD d = true) (hf : isFloatD df = true) :
    max_value_for_type (.cls d) = .ok none ∧
    write_e57_colors ⟨df, vs⟩ = .error "TypeError: unsupported operand type NoneType" := by
  constructor
  · unfold max_value_for_type
    rcases hd with h | h
    · simp [TypeArg.isIntKind, TypeArg.dtype, h]
    · simp [TypeArg.isIntKind, TypeArg.isFloatKind, TypeArg.dtype, h, float_not_int d h]
  · have hne : dtypeMatches df (.cls .u8) = false := by
      have : df ≠ .u8 := by
        intro h
        rw [h] at hf
        exact absurd hf (by decide)
      simp [dtypeMatches, this]
    have hmv : max_value_for_type (.cls .u8) = .ok none := by rfl
    unfold write_e57_colors convert_to_type_incl_scaling
    simp [hne, hf, float_not_int df hf, TypeArg.isIntKind, TypeArg.isFloatKind, TypeArg.dtype,
      hmv, show isFloatD DType.u8 = false from rfl, show isIntD DType.u8 = true from rfl]

/-- C10 witness: the class `np.uint8` as `write_e57` passes it, and a
float32 color array. -/
theorem c10_class_none_witness :
    max_value_for_type (.cls .u8) = .ok none ∧
    write_e57_colors ⟨.f32, [1/2]⟩ = .error "TypeError: unsupported operand type NoneType" :=
  c10_class_none .u8 .f32 [1/2] (Or.inl (by decide)) (by decide)

/-- C8: the float-to-float conversion computes each value as
`value / finfo(src).max * finfo(tgt).max`, but does NOT return an array of
the target scalar type: the `.astype(dtype=target_type)` is applied to the
scalar `target_max_value` instead of the product, so converting a float64
array to float32 yields a float64-typed array. -/
theorem c8_float_to_float :
    convert_to_type_incl_scaling ⟨.f64, [1]⟩ (.inst .f32) true =
      .ok (some ⟨.f64, [1 / floatMax .f64 * floatMax .f32]⟩) ∧
    DType.f64 ≠ DType.f32 ∧
    (∀ (d1 d2 : DType) (vs : List ℚ),
      convert_type_floats_incl_scaling ⟨d1, vs⟩ d2 =
        ⟨d1, vs.map (fun v => v / floatMax d1 * floatMax d2)⟩) := by
  refine ⟨?_, by decide, fun d1 d2 vs => rfl⟩
  rw [convert_float_float (by decide) (by decide) (by decide)]
  simp

/-- C1: the missing-color default invariant holds for the E57 decoder — a
color-less scan decodes to a model whose colors are a zero-filled array of
the default uint8 dtype with `len(points) == len(colors) == len(intensities)`
— but the LAS decoder breaks the claim: its guard `'r' in fn` tests dict KEY
membership on a mapping that always carries all seven keys, so a color-less
LAS file reaches `las[None]` and decoding raises instead of zero-filling. -/
theorem c1_missing_color_defaults :
    read_e57 e57Colorless =
      .ok { points_dtype := .f32, points := [(1, 2, 3), (4, 5, 6)]
            colors_dtype := .u8, colors := [(0, 0, 0), (0, 0, 0)]
            intensities_dtype := .f32, intensities := [10, 20] } ∧
    (∀ mdl : Model, read_e57 e57Colorless = .ok mdl →
      mdl.points.length = mdl.colors.length ∧ mdl.colors.length = mdl.intensities.length) ∧
    read_las lasColorless = .error "ValueError: None is not a dimension of this point format" := by
  refine ⟨by decide, ?_, by decide⟩
  intro mdl h
  have he : read_e57 e57Colorless =
      .ok { points_dtype := .f32, points := [(1, 2, 3), (4, 5, 6)]
            colors_dtype := .u8, colors := [(0, 0, 0), (0, 0, 0)]
            intensities_dtype := .f32, intensities := [10, 20] } := by decide
  rw [he] at h
  cases h
  exact ⟨rfl, rfl⟩

/-- C4: the scenario fails on the code.  `get_skip_lines_pts` stops at the
very first line — the column-name header contains a space and is neither a
`//` comment nor a lone number — so it returns 0 instead of 2; `read_pts`
then samples the header itself (typing every column float32, not uint8) and
`np.loadtxt`, told to skip nothing, chokes on the header's non-numeric
fields. -/
theorem c4_pts_header_scenario :
    get_skip_lines_pts ptsScenarioLines = 0 ∧
    ptsSampleDtypes (strSplitOn "X Y Z Intensity R G B" ' ') =
      [.f32, .f32, .f32, .f32, .f32, .f32, .f32] ∧
    read_pts ptsScenarioLines = .error "ValueError: could not convert string to float" := by
  refine ⟨by decide, by decide, ?_⟩
  decide

lemma las_axis_spec (l : List ℚ) (hne : l ≠ []) :
    (∀ x ∈ l, listMinQ l ≤ x) ∧ (∃ x ∈ l, x = listMinQ l) ∧
    (∀ x ∈ l, x - listMinQ l ≤ (listMaxQ (l.map (· - listMinQ l)) / i32maxQ) * i32maxQ) ∧
    (∃ x ∈ l, x - listMinQ l = (listMaxQ (l.map (· - listMinQ l)) / i32maxQ) * i32maxQ) ∧
    (∀ x ∈ l, las_write_clamp (listMinQ l) (listMaxQ (l.map (· - listMinQ l)) / i32maxQ) x = x) := by
  have hi32 : (0 : ℚ) < i32maxQ := by norm_num [i32maxQ]
  have hcancel : (listMaxQ (l.map (· - listMinQ l)) / i32maxQ) * i32maxQ =
      listMaxQ (l.map (· - listMinQ l)) := by
    field_simp
  have hmax_ub : ∀ x ∈ l, x - listMinQ l ≤ listMaxQ (l.map (· - listMinQ l)) := by
    intro x hx
    exact le_listMaxQ (List.mem_map.mpr ⟨x, hx, rfl⟩)
  have hmin_mem := listMinQ_mem hne
  have hmax_mem : listMaxQ (l.map (· - listMinQ l)) ∈ l.map (· - listMinQ l) := by
    apply listMaxQ_mem
    intro h
    exact hne (List.map_eq_nil.mp h)
  have hmax_nonneg : 0 ≤ listMaxQ (l.map (· - listMinQ l)) := by
    have : listMinQ l - listMinQ l ≤ listMaxQ (l.map (· - listMinQ l)) :=
      hmax_ub (listMinQ l) hmin_mem
    linarith
  have hsc_nonneg : 0 ≤ listMaxQ (l.map (· - listMinQ l)) / i32maxQ :=
    div_nonneg hmax_nonneg (le_of_lt hi32)
  refine ⟨fun x hx => listMinQ_le hx, ⟨listMinQ l, hmin_mem, rfl⟩, ?_, ?_, ?_⟩
  · intro x hx
    rw [hcancel]
    exact hmax_ub x hx
  · obtain ⟨x, hx, hxe⟩ := List.mem_map.mp hmax_mem
    exact ⟨x, hx, by rw [hcancel, hxe]⟩
  · intro x hx
    unfold las_write_clamp
    have h1 : listMinQ l + (-2147483648 : ℚ) * (listMaxQ (l.map (· - listMinQ l)) / i32maxQ) ≤
        x := by
      have : (-2147483648 : ℚ) * (listMaxQ (l.map (· - listMinQ l)) / i32maxQ) ≤ 0 := by
        apply mul_nonpos_of_nonpos_of_nonneg _ hsc_nonneg
        norm_num
      have hx' := listMinQ_le hx
      linarith
    have h2 : x ≤ listMinQ l + i32maxQ * (listMaxQ (l.map (· - listMinQ l)) / i32maxQ) := by
      have := hmax_ub x hx
      have hcomm : i32maxQ * (listMaxQ (l.map (· - listMinQ l)) / i32maxQ) =
          (listMaxQ (l.map (· - listMinQ l)) / i32maxQ) * i32maxQ := by ring
      rw [hcomm, hcancel]
      linarith
    dsimp only
    rw [min_eq_left h2, max_eq_right h1]

/-- C9: for a model with floating-point points, `write_las` computes, per
axis, offset = min(points) and scale = max(points - offset) / INT32_MAX, the
offset and scaled range bound every coordinate (bounds attained), and the
spec's write-side clamp to `[min_allowed, max_allowed]` is the identity on
every coordinate — no coordinate leaves the representable storage range. -/
theorem c9_las_header (d : DType) (points : List (ℚ × ℚ × ℚ))
    (hd : isFloatD d = true) (hne : points ≠ []) :
    write_las_offsets_scales d points = some (write_las_header points) ∧
    las_header_spec_ok points := by
  constructor
  · unfold write_las_offsets_scales
    rw [if_neg (by rw [float_not_int d hd]; simp), if_pos hd]
  · have hxne : points.map (·.1) ≠ [] := by
      intro h; exact hne (List.map_eq_nil.mp h)
    have hyne : points.map (·.2.1) ≠ [] := by
      intro h; exact hne (List.map_eq_nil.mp h)
    have hzne : points.map (·.2.2) ≠ [] := by
      intro h; exact hne (List.map_eq_nil.mp h)
    obtain ⟨hx1, hx2, hx3, hx4, hx5⟩ := las_axis_spec (points.map (·.1)) hxne
    obtain ⟨hy1, hy2, hy3, hy4, hy5⟩ := las_axis_spec (points.map (·.2.1)) hyne
    obtain ⟨hz1, hz2, hz3, hz4, hz5⟩ := las_axis_spec (points.map (·.2.2)) hzne
    unfold las_header_spec_ok write_las_header
    refine ⟨?_, ⟨?_, ?_, ?_⟩, ?_, ⟨?_, ?_, ?_⟩, ?_⟩
    · intro p hp
      exact ⟨hx1 p.1 (List.mem_map.mpr ⟨p, hp, rfl⟩),
        hy1 p.2.1 (List.mem_map.mpr ⟨p, hp, rfl⟩),
        hz1 p.2.2 (List.mem_map.mpr ⟨p, hp, rfl⟩)⟩
    · obtain ⟨x, hx, hxe⟩ := hx2
      obtain ⟨p, hp, rfl⟩ := List.mem_map.mp hx
      exact ⟨p, hp, hxe⟩
    · obtain ⟨y, hy, hye⟩ := hy2
      obtain ⟨p, hp, rfl⟩ := List.mem_map.mp hy
      exact ⟨p, hp, hye⟩
    · obtain ⟨z, hz, hze⟩ := hz2
      obtain ⟨p, hp, rfl⟩ := List.mem_map.mp hz
      exact ⟨p, hp, hze⟩
    · intro p hp
      exact ⟨hx3 p.1 (List.mem_map.mpr ⟨p, hp, rfl⟩),
        hy3 p.2.1 (List.mem_map.mpr ⟨p, hp, rfl⟩),
        hz3 p.2.2 (List.mem_map.mpr ⟨p, hp, rfl⟩)⟩
    · obtain ⟨x, hx, hxe⟩ := hx4
      obtain ⟨p, hp, rfl⟩ := List.mem_map.mp hx
      exact ⟨p, hp, hxe⟩
    · obtain ⟨y, hy, hye⟩ := hy4
      obtain ⟨p, hp, rfl⟩ := List.mem_map.mp hy
      exact ⟨p, hp, hye⟩
    · obtain ⟨z, hz, hze⟩ := hz4
      obtain ⟨p, hp, rfl⟩ := List.mem_map.mp hz
      exact ⟨p, hp, hze⟩
    · intro p hp
      exact ⟨hx5 p.1 (List.mem_map.mpr ⟨p, hp, rfl⟩),
        hy5 p.2.1 (List.mem_map.mpr ⟨p, hp, rfl⟩),
        hz5 p.2.2 (List.mem_map.mpr ⟨p, hp, rfl⟩)⟩

/-- C9 witness: the header characterisation at a concrete two-point
float cloud. -/
theorem c9_las_header_witness :
    write_las_offsets_scales .f32 [(0, 0, 0), (1, 2, 3)] =
      some (write_las_header [(0, 0, 0), (1, 2, 3)]) ∧
    las_header_spec_ok [(0, 0, 0), (1, 2, 3)] :=
  c9_las_header .f32 [(0, 0, 0), (1, 2, 3)] (by decide) (by decide)
